import Mathlib

/-!
Shallow embedding of the sabb HackerOne scope fetcher (src/main.go).

The embedding models:
- the credential normalizer sanitizeKey (strings.Map over runes with
  unicode.IsSpace),
- the HTTP requester doRequest (status classification) and its retry
  wrapper doRequestWithRetry (3 attempts, exponential sleep, retry only
  on errors whose message contains the text "deadline exceeded"),
- the guarded JSON decoder safeUnmarshal (including its panic-recovery
  path, which returns a nil error because the Go return value is unnamed),
- the paginated Fetch loop of hackerOneFetcher, with the network and the
  JSON decoder abstracted as oracles, and with an explicit trace of page
  requests, scope requests, output lines and log lines.

Strings are modelled as Lean String; rune-level work uses List Char,
matching how Go strings.Map iterates runes. The context is modelled as
never cancelled, since no claim under verification concerns cancellation.
-/

namespace Sabb

/-- Go unicode.IsSpace on a code point: the Unicode White_Space property,
exactly the ranges of Go's unicode.White_Space table. -/
def goIsSpace (c : Char) : Bool :=
  let n := c.toNat
  decide ((0x9 ≤ n ∧ n ≤ 0xD) ∨ n = 0x20 ∨ n = 0x85 ∨ n = 0xA0 ∨ n = 0x1680 ∨
    (0x2000 ≤ n ∧ n ≤ 0x200A) ∨ n = 0x2028 ∨ n = 0x2029 ∨ n = 0x202F ∨
    n = 0x205F ∨ n = 0x3000)

/-- Go strings.Map over the runes of a string, with a mapping that may drop
a rune (a negative return in Go, modelled as none). -/
def stringsMap (f : Char → Option Char) : List Char → List Char
  | [] => []
  | c :: cs =>
    match f c with
    | none => stringsMap f cs
    | some d => d :: stringsMap f cs

/-- sanitizeKey from src/main.go: strings.Map dropping every rune for which
unicode.IsSpace holds. -/
def sanitizeKey (s : List Char) : List Char :=
  stringsMap (fun r => if goIsSpace r then none else some r) s

theorem stringsMap_dropIf (p : Char → Bool) (s : List Char) :
    stringsMap (fun r => if p r then none else some r) s
      = s.filter (fun c => !p c) := by
  induction s with
  | nil => rfl
  | cons c cs ih =>
    cases h : p c <;> simp [stringsMap, List.filter_cons, h, ih]

theorem sanitizeKey_eq_filter (s : List Char) :
    sanitizeKey s = s.filter (fun c => !goIsSpace c) :=
  stringsMap_dropIf goIsSpace s

theorem filter_filter_self (p : Char → Bool) (s : List Char) :
    (s.filter p).filter p = s.filter p := by
  induction s with
  | nil => rfl
  | cons c cs ih =>
    cases h : p c <;> simp [List.filter_cons, h, ih]

/-- Claim C8: sanitizeKey (the normalizer) returns a string with no
whitespace code points, equal to the subsequence of non-whitespace
characters of its input in original order, and is the identity on
whitespace-free inputs. -/
theorem claim8_normalize (s : List Char) :
    (∀ c ∈ sanitizeKey s, goIsSpace c = false) ∧
    sanitizeKey s = s.filter (fun c => !goIsSpace c) ∧
    ((∀ c ∈ s, goIsSpace c = false) → sanitizeKey s = s) := by
  refine ⟨?_, sanitizeKey_eq_filter s, ?_⟩
  · intro c hc
    rw [sanitizeKey_eq_filter] at hc
    have h := List.of_mem_filter hc
    simpa using h
  · intro h
    rw [sanitizeKey_eq_filter]
    apply List.filter_eq_self.mpr
    intro a ha
    simp [h a ha]

/-- Witness for claim C8 at concrete inputs: a string with a space and a
tab, and a whitespace-free string. -/
theorem claim8_witness :
    sanitizeKey [' ', 'a', '\t', 'b'] = ['a', 'b'] ∧
    sanitizeKey ['a', 'b'] = ['a', 'b'] := by
  constructor
  · exact (claim8_normalize [' ', 'a', '\t', 'b']).2.1.trans (by decide)
  · exact (claim8_normalize ['a', 'b']).2.2 (by decide)

/-- Claim C10: sanitizeKey is idempotent. -/
theorem claim10_sanitizeKey_idempotent (s : List Char) :
    sanitizeKey (sanitizeKey s) = sanitizeKey s := by
  simp [sanitizeKey_eq_filter, filter_filter_self]

/-! ### HTTP requester and retry wrapper -/

/-- Substring test on rune lists, the model of Go strings.Contains. -/
def listContains (needle : List Char) : List Char → Bool
  | [] => needle.isEmpty
  | c :: t => needle.isPrefixOf (c :: t) || listContains needle t

/-- The needle of the retry condition in doRequestWithRetry. -/
def deadlineNeedle : List Char := "deadline exceeded".toList

/-- strings.Contains of the message of an error with "deadline exceeded",
the retry condition of doRequestWithRetry in src/main.go. -/
def containsDeadline (msg : String) : Bool :=
  listContains deadlineNeedle msg.toList

/-- Outcome of one HTTP round trip as seen by doRequest: either a transport
or context error from client.Do (carrying its message), or a response with
a status code, a status line and a body. Request-build and body-read
errors are subsumed under transportErr. -/
inductive HttpOutcome where
  | transportErr (msg : String)
  | response (status : Nat) (statusText : String) (body : String)

/-- doRequest from src/main.go, as a function of the round-trip outcome:
status at least 500 becomes the API unavailable error, status at least 400
becomes the API returned error, anything below 400 returns the body. -/
def doRequest : HttpOutcome → Except String String
  | .transportErr m => .error m
  | .response st stText body =>
    if 500 ≤ st then .error ("API unavailable: " ++ stText)
    else if 400 ≤ st then .error ("API returned error " ++ stText)
    else .ok body

/-- Result of doRequestWithRetry together with its observable trace: the
final result, the number of doRequest attempts made, and the sleeps (in
seconds) taken before retries, in order. -/
structure RetryResult where
  result : Except String String
  attempts : Nat
  sleeps : List Nat

/-- The loop body of doRequestWithRetry: fuel counts the remaining
attempts (3 at the start), attempt is the Go loop index, lastErr the last
error seen, sleepAcc the sleeps taken so far. Before every attempt other
than the first it sleeps 1 <<< attempt seconds (the code computes
time.Duration(1<<uint(attempt)) * time.Second). An attempt that fails
with an error whose message does not contain "deadline exceeded" returns
that error at once; after the third failed attempt the last error is
returned wrapped. -/
def retryGo (req : Nat → HttpOutcome) :
    Nat → Nat → Option String → List Nat → RetryResult
  | 0, attempt, lastErr, sleepAcc =>
    { result := .error ("después de 3 intentos: " ++ lastErr.getD "")
      attempts := attempt
      sleeps := sleepAcc }
  | fuel + 1, attempt, _lastErr, sleepAcc =>
    let sleepAcc := if 0 < attempt then sleepAcc ++ [2 ^ attempt] else sleepAcc
    match doRequest (req attempt) with
    | .ok body => { result := .ok body, attempts := attempt + 1, sleeps := sleepAcc }
    | .error e =>
      if containsDeadline e then
        retryGo req fuel (attempt + 1) (some e) sleepAcc
      else
        { result := .error e, attempts := attempt + 1, sleeps := sleepAcc }

/-- doRequestWithRetry from src/main.go over an attempt-indexed oracle of
round-trip outcomes (the context is modelled as never cancelled). -/
def doRequestWithRetry (req : Nat → HttpOutcome) : RetryResult :=
  retryGo req 3 0 none []

/-- A requester whose every attempt fails with a context deadline error. -/
def timeoutReq : Nat → HttpOutcome :=
  fun _ => .transportErr "context deadline exceeded"

/-- A requester whose every attempt yields a 503 response. -/
def req503 : Nat → HttpOutcome :=
  fun _ => .response 503 "503 Service Unavailable" ""

/-- A requester whose every attempt yields a 404 response. -/
def req404 : Nat → HttpOutcome :=
  fun _ => .response 404 "404 Not Found" ""

theorem retryGo_attempts_le (req : Nat → HttpOutcome) (fuel attempt : Nat)
    (lastErr : Option String) (sleepAcc : List Nat) :
    (retryGo req fuel attempt lastErr sleepAcc).attempts ≤ attempt + fuel := by
  induction fuel generalizing attempt lastErr sleepAcc with
  | zero => simp [retryGo]
  | succ n ih =>
    simp only [retryGo]
    cases doRequest (req attempt) with
    | ok body => simp
    | error e =>
      by_cases h : containsDeadline e = true
      · simp only [h, if_true]
        have := ih (attempt + 1) (some e)
          (if 0 < attempt then sleepAcc ++ [2 ^ attempt] else sleepAcc)
        omega
      · simp [h]

/-- Counterexample to claim C3 as stated: a requester that always answers
503 is not retried; doRequestWithRetry stops after a single attempt with
the ServiceUnavailable-style error and takes no backoff sleep. -/
theorem claim3_counterexample :
    (doRequestWithRetry req503).attempts = 1 ∧
    (doRequestWithRetry req503).result
      = .error "API unavailable: 503 Service Unavailable" ∧
    (doRequestWithRetry req503).sleeps = [] := by
  refine ⟨?_, ?_, ?_⟩ <;> rfl

/-- Claim C3 amended: a response with status at least 500 is classified as
the distinct ServiceUnavailable-style error (API unavailable), but
doRequestWithRetry does not retry it: unless the resulting message happens
to contain the text "deadline exceeded", the first 5xx aborts the call
with exactly one attempt made and the error returned unwrapped. -/
theorem claim3_5xx_no_retry (st : Nat) (stText body : String)
    (req : Nat → HttpOutcome)
    (h5 : 500 ≤ st)
    (hreq : req 0 = .response st stText body)
    (hnd : containsDeadline ("API unavailable: " ++ stText) = false) :
    doRequest (req 0) = .error ("API unavailable: " ++ stText) ∧
    (doRequestWithRetry req).attempts = 1 ∧
    (doRequestWithRetry req).result = .error ("API unavailable: " ++ stText) := by
  have hdo : doRequest (req 0) = .error ("API unavailable: " ++ stText) := by
    rw [hreq]
    simp [doRequest, h5]
  refine ⟨hdo, ?_, ?_⟩ <;>
    simp [doRequestWithRetry, retryGo, hdo, hnd]

/-- Witness for the amended claim C3 at the concrete 503 requester. -/
theorem claim3_witness :
    500 ≤ 503 ∧ req503 0 = .response 503 "503 Service Unavailable" "" ∧
    containsDeadline ("API unavailable: " ++ "503 Service Unavailable") = false ∧
    (doRequest (req503 0) = .error ("API unavailable: " ++ "503 Service Unavailable") ∧
      (doRequestWithRetry req503).attempts = 1 ∧
      (doRequestWithRetry req503).result
        = .error ("API unavailable: " ++ "503 Service Unavailable")) :=
  ⟨by decide, rfl, by decide,
    claim3_5xx_no_retry 503 "503 Service Unavailable" "" req503
      (by decide) rfl (by decide)⟩

/-- Counterexample to claim C4 as stated: for the always-timeout requester
the sleeps before the second and third attempts are 2s and 4s, not the
claimed 1s and 2s. -/
theorem claim4_counterexample :
    (doRequestWithRetry timeoutReq).sleeps = [2, 4] ∧
    (doRequestWithRetry timeoutReq).sleeps ≠ [1, 2] := by
  constructor
  · rfl
  · intro h
    have h2 : ([2, 4] : List Nat) = [1, 2] := by
      have he : (doRequestWithRetry timeoutReq).sleeps = [2, 4] := rfl
      rw [he] at h
      exact h
    simp at h2

/-- Claim C4 amended: doRequestWithRetry makes at most 3 attempts in all
cases; before each retry (never before the first attempt) it sleeps
2 to the power of the zero-based attempt index seconds, i.e. 2s before the
second attempt and 4s before the third; for a requester whose every
attempt fails with a deadline-containing error it makes exactly 3
attempts, sleeps exactly 2s then 4s (so at least 1s+2s in total, and no
sleep after the final failure), and returns the last error wrapped with
the after-3-attempts prefix. -/
theorem claim4_retry_budget (req : Nat → HttpOutcome)
    (h : ∀ n, ∃ m, doRequest (req n) = .error m ∧ containsDeadline m = true) :
    (∀ r : Nat → HttpOutcome, (doRequestWithRetry r).attempts ≤ 3) ∧
    (doRequestWithRetry req).attempts = 3 ∧
    (doRequestWithRetry req).sleeps = [2, 4] ∧
    ∃ m, doRequest (req 2) = .error m ∧
      (doRequestWithRetry req).result = .error ("después de 3 intentos: " ++ m) := by
  obtain ⟨m0, h0, c0⟩ := h 0
  obtain ⟨m1, h1, c1⟩ := h 1
  obtain ⟨m2, h2, c2⟩ := h 2
  refine ⟨fun r => retryGo_attempts_le r 3 0 none [], ?_, ?_, m2, h2, ?_⟩ <;>
    simp [doRequestWithRetry, retryGo, h0, c0, h1, c1, h2, c2]

/-- Witness for the amended claim C4 at the concrete always-timeout
requester. -/
theorem claim4_witness :
    (∀ n, ∃ m, doRequest (timeoutReq n) = .error m ∧ containsDeadline m = true) ∧
    ((∀ r : Nat → HttpOutcome, (doRequestWithRetry r).attempts ≤ 3) ∧
      (doRequestWithRetry timeoutReq).attempts = 3 ∧
      (doRequestWithRetry timeoutReq).sleeps = [2, 4] ∧
      ∃ m, doRequest (timeoutReq 2) = .error m ∧
        (doRequestWithRetry timeoutReq).result
          = .error ("después de 3 intentos: " ++ m)) :=
  ⟨fun _ => ⟨"context deadline exceeded", rfl, by decide⟩,
    claim4_retry_budget timeoutReq
      (fun _ => ⟨"context deadline exceeded", rfl, by decide⟩)⟩

/-- Claim C5: doRequestWithRetry retries only on deadline-classified
errors. A first attempt that fails with an error whose message does not
contain "deadline exceeded" (in particular any 4xx classification, whose
shape is also stated) aborts at once: exactly one attempt, no sleeps, the
error returned as is. Conversely more than one attempt implies the first
error was deadline-classified. -/
theorem claim5_non_retryable (req : Nat → HttpOutcome) (e : String)
    (h0 : doRequest (req 0) = .error e)
    (hnd : containsDeadline e = false) :
    ((doRequestWithRetry req).attempts = 1 ∧
      (doRequestWithRetry req).sleeps = [] ∧
      (doRequestWithRetry req).result = .error e) ∧
    (∀ st stText body, 400 ≤ st → st < 500 →
      doRequest (.response st stText body) = .error ("API returned error " ++ stText)) ∧
    (∀ r : Nat → HttpOutcome, 1 < (doRequestWithRetry r).attempts →
      ∃ m, doRequest (r 0) = .error m ∧ containsDeadline m = true) := by
  refine ⟨?_, ?_, ?_⟩
  · refine ⟨?_, ?_, ?_⟩ <;> simp [doRequestWithRetry, retryGo, h0, hnd]
  · intro st stText body h4 h5
    have hn5 : ¬ 500 ≤ st := by omega
    simp [doRequest, hn5, h4]
  · intro r hr
    rcases hd : doRequest (r 0) with e0 | b0
    · by_cases hc : containsDeadline e0 = true
      · exact ⟨e0, rfl, hc⟩
      · exfalso
        simp [doRequestWithRetry, retryGo, hd, hc] at hr
    · exfalso
      simp [doRequestWithRetry, retryGo, hd] at hr

/-- Witness for claim C5 at the concrete 404 requester: exactly one
attempt, immediate failure. -/
theorem claim5_witness :
    doRequest (req404 0) = .error "API returned error 404 Not Found" ∧
    containsDeadline "API returned error 404 Not Found" = false ∧
    (((doRequestWithRetry req404).attempts = 1 ∧
      (doRequestWithRetry req404).sleeps = [] ∧
      (doRequestWithRetry req404).result = .error "API returned error 404 Not Found") ∧
    (∀ st stText body, 400 ≤ st → st < 500 →
      doRequest (.response st stText body) = .error ("API returned error " ++ stText)) ∧
    (∀ r : Nat → HttpOutcome, 1 < (doRequestWithRetry r).attempts →
      ∃ m, doRequest (r 0) = .error m ∧ containsDeadline m = true)) :=
  ⟨rfl, by decide,
    claim5_non_retryable req404 "API returned error 404 Not Found" rfl (by decide)⟩

/-! ### Safe decoder -/

/-- Outcome of the underlying json.Unmarshal call: a decoded value, a
reported error, or a runtime fault (panic) carrying the string rendering
of the recovered value. -/
inductive JsonOutcome (α : Type) where
  | ok (v : α)
  | err (msg : String)
  | panicked (msg : String)
deriving DecidableEq

/-- What safeUnmarshal leaves behind: the contents of the decode target
after the call (zero value when nothing was decoded), the returned error,
and the log lines emitted. -/
structure SafeRes (α : Type) where
  value : α
  err : Option String
  logged : List String

/-- safeUnmarshal from src/main.go. A reported json.Unmarshal error is
wrapped as the JSON decode failed error. A panic is recovered by the
deferred function, which logs it; because the Go function has an unnamed
return value, the recover path cannot set the result, so the function
returns a nil error in that case. -/
def safeUnmarshal {α : Type} (zero : α) : JsonOutcome α → SafeRes α
  | .ok v => { value := v, err := none, logged := [] }
  | .err m => { value := zero, err := some ("JSON decode failed: " ++ m), logged := [] }
  | .panicked m => { value := zero, err := none, logged := ["panic recuperado: " ++ m] }

/-! ### The HackerOne fetcher -/

/-- One row of a decoded programs page: the attributes the fetcher reads. -/
structure Program where
  handle : String
  offersBounties : Bool
deriving DecidableEq

/-- One row of a decoded scope page: the attributes the fetcher reads. -/
structure ScopeEntry where
  eligibleForBounty : Bool
  assetIdentifier : String
deriving DecidableEq

/-- The environment of one Fetch invocation: for each programs page
number, the result of its doRequestWithRetry call (a body or an error
message) and the json.Unmarshal outcome of decoding that body; likewise
for each program handle and its structured-scopes request. The two
oracles for a page or handle are read coherently, as the network and
decoder of a fixed run. -/
structure FetchEnv where
  pageReq : Nat → Except String String
  pageDec : Nat → JsonOutcome (List Program)
  scopeReq : String → Except String String
  scopeDec : String → JsonOutcome (List ScopeEntry)

/-- Observable state of one Fetch invocation: the processed counter, the
lines written to the output sink, the programs pages requested in order,
the scope handles requested in order, and the log lines. -/
structure FetchState where
  processed : Nat
  output : List String
  pageReqs : List Nat
  scopeReqs : List String
  logs : List String
deriving DecidableEq

/-- The zero state at the start of Fetch. -/
def initFetchState : FetchState :=
  { processed := 0, output := [], pageReqs := [], scopeReqs := [], logs := [] }

/-- The scope entries of a decoded scope page that survive the eligibility
filter, mapped to their asset identifiers, in page order: the loop at the
end of fetchEligibleAssets. -/
def eligibleAssets (entries : List ScopeEntry) : List String :=
  (entries.filter (fun d => d.eligibleForBounty)).map (fun d => d.assetIdentifier)

/-- fetchEligibleAssets from src/main.go: one scope request for the
handle, then a guarded decode, then the eligibility filter. Returns the
asset identifiers or the error, together with the log lines of the
guarded decode. The scope request itself is recorded by the caller. -/
def fetchEligibleAssets (env : FetchEnv) (handle : String) :
    Except String (List String) × List String :=
  match env.scopeReq handle with
  | .error e => (.error e, [])
  | .ok _ =>
    let r := safeUnmarshal ([] : List ScopeEntry) (env.scopeDec handle)
    match r.err with
    | some e => (.error e, r.logged)
    | none => (.ok (eligibleAssets r.value), r.logged)

/-- The combined error message, if any, of the scope request and the scope
decode for a handle, exactly as fetchEligibleAssets would report it. -/
def scopeErrMsg (env : FetchEnv) (handle : String) : Option String :=
  match env.scopeReq handle with
  | .error e => some e
  | .ok _ =>
    match env.scopeDec handle with
    | .err m => some ("JSON decode failed: " ++ m)
    | _ => none

/-- The asset lines a successful scope fetch of a handle contributes:
the eligible assets of a decoded page, nothing otherwise (the recovered
panic path leaves the page at its zero value). -/
def assetsOf (env : FetchEnv) (handle : String) : List String :=
  match env.scopeDec handle with
  | .ok es => eligibleAssets es
  | _ => []

/-- The concatenation of the asset lines of a list of programs, in page
order. -/
def concatAssets (env : FetchEnv) : List Program → List String
  | [] => []
  | p :: rest => assetsOf env p.handle ++ concatAssets env rest

/-- The inner loop of Fetch over the programs of one decoded page:
programs that do not offer bounties are skipped with no scope request;
for the others a scope request is recorded and fetchEligibleAssets runs;
on its error the loop stops with the error wrapped with the handle; on
success the assets are written as lines and the processed counter is
incremented once. -/
def processPrograms (env : FetchEnv) :
    List Program → FetchState → FetchState × Option String
  | [], st => (st, none)
  | p :: rest, st =>
    if p.offersBounties then
      let st1 : FetchState := { st with scopeReqs := st.scopeReqs ++ [p.handle] }
      match fetchEligibleAssets env p.handle with
      | (.error e, lg) =>
        ({ st1 with logs := st1.logs ++ lg },
          some ("handle " ++ p.handle ++ " failed: " ++ e))
      | (.ok assets, lg) =>
        processPrograms env rest
          { st1 with
              logs := st1.logs ++ lg
              output := st1.output ++ assets
              processed := st1.processed + 1 }
    else
      processPrograms env rest st

/-- The page loop of Fetch, from a given page number. Fuel bounds the
number of pages the model unrolls; none means the Go loop would still be
running after that many pages. Each iteration records the page request;
a request error is wrapped with the programs-page-request-failed prefix;
the guarded decode error passes through; an empty decoded program list
ends the loop without error; otherwise the programs are processed and the
loop moves to the next page. -/
def fetchLoop (env : FetchEnv) :
    Nat → Nat → FetchState → Option (FetchState × Option String)
  | 0, _, _ => none
  | fuel + 1, page, st =>
    let st1 : FetchState := { st with pageReqs := st.pageReqs ++ [page] }
    match env.pageReq page with
    | .error e => some (st1, some ("programs page request failed: " ++ e))
    | .ok _ =>
      let r := safeUnmarshal ([] : List Program) (env.pageDec page)
      let st2 : FetchState := { st1 with logs := st1.logs ++ r.logged }
      match r.err with
      | some e => some (st2, some e)
      | none =>
        if r.value.isEmpty then some (st2, none)
        else
          match processPrograms env r.value st2 with
          | (st3, some e) => some (st3, some e)
          | (st3, none) => fetchLoop env fuel (page + 1) st3

/-- Whether strings.SplitN of the credential on the first colon yields two
parts: exactly when the string contains a colon. -/
def credHasSep (apiKey : String) : Bool :=
  apiKey.toList.contains ':'

/-- The invalid-credential-format error message of Fetch. -/
def credErrMsg : String :=
  "formato de credenciales inválido, debe ser username:apikey"

/-- Fetch of hackerOneFetcher from src/main.go, over the request and
decode oracles: the credential-format check runs before any request; then
the page loop starts at page 1 with the zero state. -/
def fetch (env : FetchEnv) (apiKey : String) (fuel : Nat) :
    Option (FetchState × Option String) :=
  if credHasSep apiKey then fetchLoop env fuel 1 initFetchState
  else some (initFetchState, some credErrMsg)

/-! ### Lemmas about the fetch loop -/

theorem fetchEligibleAssets_of_none (env : FetchEnv) (h : String)
    (hnone : scopeErrMsg env h = none) :
    ∃ lg, fetchEligibleAssets env h = (.ok (assetsOf env h), lg) := by
  cases hr : env.scopeReq h with
  | error e => simp [scopeErrMsg, hr] at hnone
  | ok b =>
    cases hd : env.scopeDec h with
    | ok v =>
      exact ⟨[], by simp [fetchEligibleAssets, hr, safeUnmarshal, hd, assetsOf]⟩
    | err m => simp [scopeErrMsg, hr, hd] at hnone
    | panicked m =>
      exact ⟨["panic recuperado: " ++ m],
        by simp [fetchEligibleAssets, hr, safeUnmarshal, hd, assetsOf, eligibleAssets]⟩

theorem fetchEligibleAssets_of_some (env : FetchEnv) (h e : String)
    (hsome : scopeErrMsg env h = some e) :
    ∃ lg, fetchEligibleAssets env h = (.error e, lg) := by
  cases hr : env.scopeReq h with
  | error e0 =>
    have he : e0 = e := by simpa [scopeErrMsg, hr] using hsome
    exact ⟨[], by simp [fetchEligibleAssets, hr, he]⟩
  | ok b =>
    cases hd : env.scopeDec h with
    | ok v => simp [scopeErrMsg, hr, hd] at hsome
    | err m =>
      have he : "JSON decode failed: " ++ m = e := by
        simpa [scopeErrMsg, hr, hd] using hsome
      exact ⟨[], by simp [fetchEligibleAssets, hr, safeUnmarshal, hd, he]⟩
    | panicked m => simp [scopeErrMsg, hr, hd] at hsome

theorem processPrograms_ok_cont (env : FetchEnv) (pre rest : List Program)
    (st : FetchState)
    (h : ∀ q ∈ pre, q.offersBounties = true → scopeErrMsg env q.handle = none) :
    ∃ stM, processPrograms env (pre ++ rest) st = processPrograms env rest stM ∧
      stM.processed
        = st.processed + (pre.filter (fun q => q.offersBounties)).length ∧
      stM.scopeReqs
        = st.scopeReqs
            ++ (pre.filter (fun q => q.offersBounties)).map (fun q => q.handle) ∧
      stM.output
        = st.output ++ concatAssets env (pre.filter (fun q => q.offersBounties)) ∧
      stM.pageReqs = st.pageReqs := by
  induction pre generalizing st with
  | nil => exact ⟨st, by simp [concatAssets]⟩
  | cons q pre ih =>
    by_cases hq : q.offersBounties = true
    · have hnone := h q (by simp) hq
      obtain ⟨lg, hfe⟩ := fetchEligibleAssets_of_none env q.handle hnone
      obtain ⟨stM, hM, h1, h2, h3, h4⟩ :=
        ih { st with
              scopeReqs := st.scopeReqs ++ [q.handle]
              logs := st.logs ++ lg
              output := st.output ++ assetsOf env q.handle
              processed := st.processed + 1 }
          (fun q2 hq2 hb2 => h q2 (List.mem_cons_of_mem _ hq2) hb2)
      refine ⟨stM, ?_, ?_, ?_, ?_, ?_⟩
      · rw [List.cons_append]
        rw [show processPrograms env (q :: (pre ++ rest)) st
              = processPrograms env (pre ++ rest)
                  { st with
                      scopeReqs := st.scopeReqs ++ [q.handle]
                      logs := st.logs ++ lg
                      output := st.output ++ assetsOf env q.handle
                      processed := st.processed + 1 }
            from by simp [processPrograms, hq, hfe]]
        exact hM
      · rw [h1]; simp [List.filter_cons, hq]; omega
      · rw [h2]; simp [List.filter_cons, hq]
      · rw [h3]; simp [List.filter_cons, hq, concatAssets]
      · exact h4
    · have hstep : processPrograms env ((q :: pre) ++ rest) st
          = processPrograms env (pre ++ rest) st := by
        simp [processPrograms, hq]
      obtain ⟨stM, hM, h1, h2, h3, h4⟩ :=
        ih st (fun q2 hq2 hb2 => h q2 (List.mem_cons_of_mem _ hq2) hb2)
      refine ⟨stM, hstep.trans hM, ?_, ?_, ?_, h4⟩ <;>
        simp [List.filter_cons, hq, h1, h2, h3]

theorem processPrograms_run (env : FetchEnv) (ps : List Program)
    (st : FetchState)
    (h : ∀ q ∈ ps, q.offersBounties = true → scopeErrMsg env q.handle = none) :
    ∃ stf, processPrograms env ps st = (stf, none) ∧
      stf.processed
        = st.processed + (ps.filter (fun q => q.offersBounties)).length ∧
      stf.scopeReqs
        = st.scopeReqs
            ++ (ps.filter (fun q => q.offersBounties)).map (fun q => q.handle) ∧
      stf.output
        = st.output ++ concatAssets env (ps.filter (fun q => q.offersBounties)) ∧
      stf.pageReqs = st.pageReqs := by
  obtain ⟨stM, hM, h1, h2, h3, h4⟩ := processPrograms_ok_cont env ps [] st h
  rw [List.append_nil] at hM
  exact ⟨stM, by simpa [processPrograms] using hM, h1, h2, h3, h4⟩

theorem processPrograms_abort (env : FetchEnv) (pre post : List Program)
    (p : Program) (st : FetchState) (e : String)
    (hpre : ∀ q ∈ pre, q.offersBounties = true → scopeErrMsg env q.handle = none)
    (hp : p.offersBounties = true)
    (he : scopeErrMsg env p.handle = some e) :
    ∃ stf, processPrograms env (pre ++ p :: post) st
        = (stf, some ("handle " ++ p.handle ++ " failed: " ++ e)) ∧
      stf.processed
        = st.processed + (pre.filter (fun q => q.offersBounties)).length ∧
      stf.scopeReqs
        = st.scopeReqs
            ++ (pre.filter (fun q => q.offersBounties)).map (fun q => q.handle)
            ++ [p.handle] ∧
      stf.pageReqs = st.pageReqs := by
  obtain ⟨stM, hM, h1, h2, h3, h4⟩ := processPrograms_ok_cont env pre (p :: post) st hpre
  obtain ⟨lg, hfe⟩ := fetchEligibleAssets_of_some env p.handle e he
  refine ⟨{ stM with scopeReqs := stM.scopeReqs ++ [p.handle], logs := stM.logs ++ lg },
    ?_, ?_, ?_, ?_⟩
  · rw [hM]
    simp [processPrograms, hp, hfe]
  · simpa using h1
  · simp [h2, List.append_assoc]
  · simpa using h4

/-- Claim C1: for a decoded programs page, only the programs whose
offersBounties flag is true get a scope request (in page order, none for
the others); each fetched scope page contributes exactly its
eligibleForBounty entries, as asset-identifier lines in page order; and
the processed counter grows by one per bounty-eligible program, not per
asset. -/
theorem claim1_eligibility (env : FetchEnv) (ps : List Program)
    (st : FetchState)
    (h : ∀ q ∈ ps, q.offersBounties = true → scopeErrMsg env q.handle = none) :
    ∃ stf, processPrograms env ps st = (stf, none) ∧
      stf.scopeReqs
        = st.scopeReqs
            ++ (ps.filter (fun q => q.offersBounties)).map (fun q => q.handle) ∧
      stf.output
        = st.output ++ concatAssets env (ps.filter (fun q => q.offersBounties)) ∧
      stf.processed
        = st.processed + (ps.filter (fun q => q.offersBounties)).length := by
  obtain ⟨stf, hM, h1, h2, h3, _⟩ := processPrograms_run env ps st h
  exact ⟨stf, hM, h2, h3, h1⟩

/-- The concrete programs page of the eligibility example: one program
without bounties, one bounty-offering program with handle x. -/
def progsEx : List Program :=
  [{ handle := "p0", offersBounties := false },
   { handle := "x", offersBounties := true }]

/-- The concrete scope page of the eligibility example: one ineligible
entry for a.com, one eligible entry for b.com. -/
def scopeEx : List ScopeEntry :=
  [{ eligibleForBounty := false, assetIdentifier := "a.com" },
   { eligibleForBounty := true, assetIdentifier := "b.com" }]

/-- A concrete environment serving progsEx on page 1, an empty page 2,
and scopeEx for handle x. -/
def envEx : FetchEnv :=
  { pageReq := fun _ => .ok ""
    pageDec := fun n => if n = 1 then .ok progsEx else .ok []
    scopeReq := fun _ => .ok ""
    scopeDec := fun h => if h = "x" then .ok scopeEx else .ok [] }

/-- Witness for claim C1 at the spec's concrete example: only handle x is
scope-requested and only b.com is written, with one program counted. -/
theorem claim1_witness :
    (∀ q ∈ progsEx, q.offersBounties = true → scopeErrMsg envEx q.handle = none) ∧
    (progsEx.filter (fun q => q.offersBounties)).map (fun q => q.handle) = ["x"] ∧
    concatAssets envEx (progsEx.filter (fun q => q.offersBounties)) = ["b.com"] ∧
    (progsEx.filter (fun q => q.offersBounties)).length = 1 ∧
    (∃ stf, processPrograms envEx progsEx initFetchState = (stf, none) ∧
      stf.scopeReqs
        = initFetchState.scopeReqs
            ++ (progsEx.filter (fun q => q.offersBounties)).map (fun q => q.handle) ∧
      stf.output
        = initFetchState.output
            ++ concatAssets envEx (progsEx.filter (fun q => q.offersBounties)) ∧
      stf.processed
        = initFetchState.processed
            + (progsEx.filter (fun q => q.offersBounties)).length) :=
  ⟨by decide, by decide, by decide, by decide,
    claim1_eligibility envEx progsEx initFetchState (by decide)⟩

/-- Claim C6 (the code against the claim): when json.Unmarshal panics,
safeUnmarshal logs the recovered fault but returns a nil error, because
the unnamed Go return value cannot be set from the deferred recover. The
fault is swallowed as success instead of surfacing as a DecodeError; only
a reported decode error is wrapped and returned. -/
theorem claim6_panic_swallowed :
    (safeUnmarshal ([] : List Program) (.panicked "unexpected fault")).err = none ∧
    (safeUnmarshal ([] : List Program) (.panicked "unexpected fault")).logged
      = ["panic recuperado: unexpected fault"] ∧
    (safeUnmarshal ([] : List Program) (.err "invalid JSON")).err
      = some ("JSON decode failed: " ++ "invalid JSON") :=
  ⟨rfl, rfl, rfl⟩

/-- Claim C9: a credential without a colon makes Fetch fail at once with
the invalid-credential-format error: zero programs processed, no page
request, no scope request, nothing written. -/
theorem claim9_cred_format (env : FetchEnv) (fuel : Nat) (key : String)
    (hkey : credHasSep key = false) :
    fetch env key fuel = some (initFetchState, some credErrMsg) ∧
    initFetchState.processed = 0 ∧ initFetchState.pageReqs = [] ∧
    initFetchState.scopeReqs = [] ∧ initFetchState.output = [] := by
  refine ⟨?_, rfl, rfl, rfl, rfl⟩
  simp [fetch, hkey]

/-- Witness for claim C9 at a concrete separator-free credential. -/
theorem claim9_witness :
    credHasSep "abc" = false ∧
    (fetch envEx "abc" 5 = some (initFetchState, some credErrMsg) ∧
      initFetchState.processed = 0 ∧ initFetchState.pageReqs = [] ∧
      initFetchState.scopeReqs = [] ∧ initFetchState.output = []) :=
  ⟨by decide, claim9_cred_format envEx 5 "abc" (by decide)⟩

theorem fetchLoop_step_ok (env : FetchEnv) (fuel page : Nat) (st : FetchState)
    (b : String) (ps : List Program)
    (hr : env.pageReq page = .ok b) (hd : env.pageDec page = .ok ps)
    (hne : ps ≠ [])
    (hscope : ∀ q ∈ ps, q.offersBounties = true → scopeErrMsg env q.handle = none) :
    ∃ stM, fetchLoop env (fuel + 1) page st = fetchLoop env fuel (page + 1) stM ∧
      stM.pageReqs = st.pageReqs ++ [page] := by
  obtain ⟨stf, hps, h1, h2, h3, h4⟩ :=
    processPrograms_run env ps { st with pageReqs := st.pageReqs ++ [page] } hscope
  have hne2 : ps.isEmpty = false := by
    cases ps with
    | nil => exact absurd rfl hne
    | cons a t => rfl
  refine ⟨stf, ?_, by simpa using h4⟩
  simp only [fetchLoop, hr, hd, safeUnmarshal, hne2]
  simp [hps]

theorem fetchLoop_step_empty (env : FetchEnv) (fuel page : Nat)
    (st : FetchState) (b : String)
    (hr : env.pageReq page = .ok b) (hd : env.pageDec page = .ok []) :
    ∃ stf, fetchLoop env (fuel + 1) page st = some (stf, none) ∧
      stf.pageReqs = st.pageReqs ++ [page] := by
  refine ⟨{ st with pageReqs := st.pageReqs ++ [page] }, ?_, rfl⟩
  simp [fetchLoop, hr, hd, safeUnmarshal]

/-- Claim C2: pages are requested from 1 upward and a page whose program
list decodes to zero programs ends the fetch normally; with pages of 3,
2 and 0 programs exactly three page requests happen and the fetch
returns a nil error. -/
theorem claim2_pagination (env : FetchEnv) (key : String)
    (ps1 ps2 : List Program) (b1 b2 b3 : String)
    (hkey : credHasSep key = true)
    (hr1 : env.pageReq 1 = .ok b1) (hr2 : env.pageReq 2 = .ok b2)
    (hr3 : env.pageReq 3 = .ok b3)
    (hd1 : env.pageDec 1 = .ok ps1) (hd2 : env.pageDec 2 = .ok ps2)
    (hd3 : env.pageDec 3 = .ok [])
    (hl1 : ps1.length = 3) (hl2 : ps2.length = 2)
    (hscope : ∀ hdl, scopeErrMsg env hdl = none) :
    ∃ stf, fetch env key 3 = some (stf, none) ∧ stf.pageReqs = [1, 2, 3] := by
  have hne1 : ps1 ≠ [] := by intro hh; rw [hh] at hl1; simp at hl1
  have hne2 : ps2 ≠ [] := by intro hh; rw [hh] at hl2; simp at hl2
  obtain ⟨s1, e1, p1⟩ := fetchLoop_step_ok env 2 1 initFetchState b1 ps1 hr1 hd1 hne1
    (fun q _ _ => hscope q.handle)
  obtain ⟨s2, e2, p2⟩ := fetchLoop_step_ok env 1 2 s1 b2 ps2 hr2 hd2 hne2
    (fun q _ _ => hscope q.handle)
  obtain ⟨s3, e3, p3⟩ := fetchLoop_step_empty env 0 3 s2 b3 hr3 hd3
  have estart : fetch env key 3 = fetchLoop env 3 1 initFetchState := by
    simp [fetch, hkey]
  have e1' : fetchLoop env 3 1 initFetchState = fetchLoop env 2 2 s1 := e1
  have e2' : fetchLoop env 2 2 s1 = fetchLoop env 1 3 s2 := e2
  have e3' : fetchLoop env 1 3 s2 = some (s3, none) := e3
  refine ⟨s3, by rw [estart, e1', e2', e3'], ?_⟩
  rw [p3, p2, p1]
  rfl

/-- The first page of the pagination example: three programs, none of
which needs a working scope endpoint beyond the constant oracle. -/
def progsA : List Program :=
  [{ handle := "a1", offersBounties := true },
   { handle := "a2", offersBounties := false },
   { handle := "a3", offersBounties := true }]

/-- The second page of the pagination example: two programs. -/
def progsB : List Program :=
  [{ handle := "b1", offersBounties := false },
   { handle := "b2", offersBounties := true }]

/-- A concrete environment serving pages of 3, 2 and 0 programs, with
every scope request succeeding on an empty scope page. -/
def envPag : FetchEnv :=
  { pageReq := fun _ => .ok ""
    pageDec := fun n => if n = 1 then .ok progsA else if n = 2 then .ok progsB else .ok []
    scopeReq := fun _ => .ok ""
    scopeDec := fun _ => .ok [] }

/-- Witness for claim C2 at the concrete three-page environment. -/
theorem claim2_witness :
    credHasSep "u:k" = true ∧
    progsA.length = 3 ∧ progsB.length = 2 ∧
    (∀ hdl, scopeErrMsg envPag hdl = none) ∧
    (∃ stf, fetch envPag "u:k" 3 = some (stf, none) ∧ stf.pageReqs = [1, 2, 3]) :=
  ⟨by decide, by decide, by decide, fun _ => rfl,
    claim2_pagination envPag "u:k" progsA progsB "" "" ""
      (by decide) rfl rfl rfl rfl rfl rfl (by decide) (by decide) (fun _ => rfl)⟩

/-- Claim C7: on the page being processed, the first bounty-offering
program whose scope request or scope decode fails stops everything: the
loop returns at once with the error wrapped with that handle, no further
page is requested, no later program gets a scope request, and the
processed count so far accompanies the error. -/
theorem claim7_scope_error_aborts (env : FetchEnv) (fuel page : Nat)
    (st : FetchState) (b : String) (pre post : List Program) (p : Program)
    (e : String)
    (hr : env.pageReq page = .ok b)
    (hd : env.pageDec page = .ok (pre ++ p :: post))
    (hpre : ∀ q ∈ pre, q.offersBounties = true → scopeErrMsg env q.handle = none)
    (hp : p.offersBounties = true)
    (he : scopeErrMsg env p.handle = some e) :
    ∃ stf, fetchLoop env (fuel + 1) page st
        = some (stf, some ("handle " ++ p.handle ++ " failed: " ++ e)) ∧
      stf.processed
        = st.processed + (pre.filter (fun q => q.offersBounties)).length ∧
      stf.pageReqs = st.pageReqs ++ [page] ∧
      stf.scopeReqs
        = st.scopeReqs
            ++ (pre.filter (fun q => q.offersBounties)).map (fun q => q.handle)
            ++ [p.handle] := by
  obtain ⟨stf, hps, h1, h2, h3⟩ :=
    processPrograms_abort env pre post p { st with pageReqs := st.pageReqs ++ [page] }
      e hpre hp he
  have hne2 : (pre ++ p :: post).isEmpty = false := by
    cases pre with
    | nil => rfl
    | cons a t => rfl
  refine ⟨stf, ?_, by simpa using h1, by simpa using h3, by simpa using h2⟩
  simp only [fetchLoop, hr, hd, safeUnmarshal, hne2]
  simp [hps]

/-- The programs page of the abort example: a bounty program with a
working scope, then one whose scope request fails, then a later program
that must never be reached. -/
def progsFail : List Program :=
  [{ handle := "ok1", offersBounties := true },
   { handle := "bad", offersBounties := true },
   { handle := "later", offersBounties := true }]

/-- A concrete environment whose scope request for handle bad fails with
a 404-classified error, while every other scope request succeeds. -/
def envFail : FetchEnv :=
  { pageReq := fun _ => .ok ""
    pageDec := fun n => if n = 1 then .ok progsFail else .ok []
    scopeReq := fun h =>
      if h = "bad" then .error "API returned error 404 Not Found" else .ok ""
    scopeDec := fun _ => .ok [] }

/-- Witness for claim C7 at the concrete failing-scope environment. -/
theorem claim7_witness :
    envFail.pageReq 1 = .ok "" ∧
    envFail.pageDec 1
      = .ok ([{ handle := "ok1", offersBounties := true }]
          ++ { handle := "bad", offersBounties := true }
            :: [{ handle := "later", offersBounties := true }]) ∧
    (∀ q ∈ [({ handle := "ok1", offersBounties := true } : Program)],
      q.offersBounties = true → scopeErrMsg envFail q.handle = none) ∧
    scopeErrMsg envFail "bad" = some "API returned error 404 Not Found" ∧
    (∃ stf, fetchLoop envFail (4 + 1) 1 initFetchState
        = some (stf, some ("handle " ++ "bad" ++ " failed: "
            ++ "API returned error 404 Not Found")) ∧
      stf.processed
        = initFetchState.processed
            + (List.filter (fun q => q.offersBounties)
                [({ handle := "ok1", offersBounties := true } : Program)]).length ∧
      stf.pageReqs = initFetchState.pageReqs ++ [1] ∧
      stf.scopeReqs
        = initFetchState.scopeReqs
            ++ (List.filter (fun q => q.offersBounties)
                [({ handle := "ok1", offersBounties := true } : Program)]).map
                  (fun q => q.handle)
            ++ ["bad"]) :=
  ⟨rfl, by decide, by decide, by decide,
    claim7_scope_error_aborts envFail 4 1 initFetchState ""
      [{ handle := "ok1", offersBounties := true }]
      [{ handle := "later", offersBounties := true }]
      { handle := "bad", offersBounties := true }
      "API returned error 404 Not Found"
      rfl (by decide) (by decide) (by decide) (by decide)⟩

end Sabb
